import Mathlib

/-!
Verification of the installation plan executor
(`skills/install-script-generator/scripts/executor.py`).

The executor is a sequencing engine: it runs the steps of a plan in order,
verifies each one, and rolls back previously completed steps in reverse
order when a critical step fails.  We embed `run_command` and
`execute_plan` shallowly:

* the outcome of each spawned shell process is supplied by an oracle
  `env : Nat → ShellOutcome` consulted at the engine's i-th call to
  `run_command` (the Python code is single-threaded, so the call index is
  well defined);
* the engine is a structurally recursive function over the list of steps,
  threading an explicit state that mirrors the Python mutable locals
  (`report["steps"]`, `report["success"]`, `report["failed_step"]`,
  `executed_steps`) plus a trace of every invocation of the Command Runner
  (`run_command`), which lets us state "never invokes" and
  "reverse-order rollback" properties;
* Python dictionary lookups with defaults (`plan.get("target", "unknown")`,
  `step.get("critical", True)`, …) are modelled with `Option` fields and
  `Option.getD`.

Wall-clock timestamps (`started_at` / `completed_at`) and printing are not
modelled; no claim refers to them.
-/

namespace Executor

/-- Outcome of one spawned shell process, as observed by
`subprocess.run`: normal completion with an exit code and captured
streams, a `TimeoutExpired`, or any other launch/execution exception. -/
inductive ShellOutcome where
  | completed (returncode : Int) (stdout : String) (stderr : String)
  | timedOut
  | fault (msg : String)
deriving Repr, DecidableEq

/-- The dictionary returned by `run_command` (executor.py lines 115-152). -/
structure CommandResult where
  success : Bool
  output : Option String
  error : Option String
  returncode : Int
deriving Repr, DecidableEq

/-- `command.startswith('#')`: whether the first character is the comment
marker. -/
def startsWithHash (s : String) : Bool :=
  match s.data with
  | [] => false
  | c :: _ => c = '#'

/-- `run_command(command, timeout=300)` (executor.py lines 115-152).
An empty command or one starting with `#` is a no-op sentinel returning
success without spawning anything; otherwise the result is determined by
the outcome of the spawned process: exit code comparison on completion,
`returncode = -1` with a synthesized error message on timeout or fault. -/
def run_command (command : String) (timeout : Nat) (outcome : ShellOutcome) :
    CommandResult :=
  if command = "" || startsWithHash command then
    { success := true
      output := some "Skipped (no command or placeholder)"
      error := none
      returncode := 0 }
  else
    match outcome with
    | .completed rc out err =>
        { success := rc == 0, output := some out, error := some err, returncode := rc }
    | .timedOut =>
        { success := false
          output := none
          error := some ("Command timed out after " ++ toString timeout ++ " seconds")
          returncode := -1 }
    | .fault msg =>
        { success := false, output := none, error := some msg, returncode := -1 }

/-- One plan step as read from the plan document.  Every field is optional:
the Python code reads each with `step.get(key, default)` and never
validates presence. -/
structure Step where
  number : Option Int
  name : Option String
  command : Option String
  verify : Option String
  rollback : Option String
  critical : Option Bool
deriving Repr, DecidableEq

/-- The loaded plan.  `plan.get("target", "unknown")`,
`plan.get("platform", "unknown")` and `plan.get("steps", [])` mean all
fields are optional with defaults. -/
structure Plan where
  target : Option String
  platform : Option String
  steps : Option (List Step)
deriving Repr, DecidableEq

/-- The step identity recorded in reports: `step.get("step", "?")` yields
either the declared number or the placeholder string `"?"`. -/
inductive StepNum where
  | num (n : Int)
  | unknown
deriving Repr, DecidableEq

/-- The five status strings assigned by `execute_plan`. -/
inductive Status where
  | pending
  | skipped
  | success
  | failed
  | verify_failed
deriving Repr, DecidableEq

/-- One entry of `report["steps"]` (executor.py lines 182-188). -/
structure StepReport where
  step : StepNum
  name : String
  status : Status
  command_result : Option CommandResult
  verify_result : Option CommandResult
deriving Repr, DecidableEq

/-- What a given invocation of `run_command` was for. -/
inductive CallKind where
  | cmd
  | verify
  | rollback
deriving Repr, DecidableEq

/-- A recorded invocation of the Command Runner. -/
structure Call where
  kind : CallKind
  command : String
deriving Repr, DecidableEq

/-- The mutable locals of `execute_plan`, made explicit: the report fields
built so far, the `executed_steps` ledger, the index of the next
`run_command` invocation into the oracle, and the trace of all
invocations so far. -/
structure EngState where
  stepsRep : List StepReport
  success : Bool
  failed_step : Option StepNum
  executed : List Step
  idx : Nat
  trace : List Call
deriving Repr, DecidableEq

/-- `step.get("step", "?")`. -/
def stepNumOf (st : Step) : StepNum :=
  match st.number with
  | some n => .num n
  | none => .unknown

/-- `step.get("name", "Unnamed step")`. -/
def stepNameOf (st : Step) : String := st.name.getD "Unnamed step"

/-- The rollback loop (executor.py lines 216-220 and 247-251): for each
ledger entry, in the order given, run its rollback command when it is a
non-empty string (Python truthiness of `step.get("rollback")`).  The
result of each rollback invocation is discarded: a rollback's own failure
never alters the engine state. -/
def rollbackAll (l : List Step) (s : EngState) : EngState :=
  match l with
  | [] => s
  | p :: rest =>
    match p.rollback with
    | some r =>
        if r = "" then rollbackAll rest s
        else rollbackAll rest
          { s with idx := s.idx + 1, trace := s.trace ++ [⟨.rollback, r⟩] }
    | none => rollbackAll rest s

/-- Either continue the step loop with an updated state, or stop it
(the Python `break`). -/
inductive StepOut where
  | cont (s : EngState)
  | halt (s : EngState)
deriving Repr, DecidableEq

/-- The body of the step loop for one step in non-dry-run mode
(executor.py lines 199-260): run the command, on failure either break
with rollback (critical) or continue (non-critical); on success run the
verify command when present, a critical verification failure breaking
with the step's own rollback first and the ledger's rollbacks next, any
other outcome recording the step as a success and appending it to
`executed_steps`. -/
def processStep (env : Nat → ShellOutcome) (st : Step) (s : EngState) : StepOut :=
  let command := st.command.getD ""
  let verify := st.verify.getD ""
  let critical := st.critical.getD true
  let result := run_command command 300 (env s.idx)
  let s1 : EngState := { s with idx := s.idx + 1, trace := s.trace ++ [⟨.cmd, command⟩] }
  if result.success = false then
    let rep : StepReport :=
      ⟨stepNumOf st, stepNameOf st, .failed, some result, none⟩
    let s2 := { s1 with stepsRep := s1.stepsRep ++ [rep] }
    if critical then
      StepOut.halt
        (rollbackAll s2.executed.reverse
          { s2 with success := false, failed_step := some (stepNumOf st) })
    else
      StepOut.cont s2
  else
    if verify = "" then
      let rep : StepReport :=
        ⟨stepNumOf st, stepNameOf st, .success, some result, none⟩
      StepOut.cont
        { s1 with stepsRep := s1.stepsRep ++ [rep], executed := s1.executed ++ [st] }
    else
      let vres := run_command verify 300 (env s1.idx)
      let s2 : EngState :=
        { s1 with idx := s1.idx + 1, trace := s1.trace ++ [⟨.verify, verify⟩] }
      if vres.success = false then
        if critical then
          let s3 := { s2 with success := false, failed_step := some (stepNumOf st) }
          let s4 :=
            match st.rollback with
            | some r =>
                if r = "" then s3
                else { s3 with idx := s3.idx + 1, trace := s3.trace ++ [⟨.rollback, r⟩] }
            | none => s3
          let s5 := rollbackAll s4.executed.reverse s4
          let rep : StepReport :=
            ⟨stepNumOf st, stepNameOf st, .verify_failed, some result, some vres⟩
          StepOut.halt { s5 with stepsRep := s5.stepsRep ++ [rep] }
        else
          let rep : StepReport :=
            ⟨stepNumOf st, stepNameOf st, .success, some result, some vres⟩
          StepOut.cont
            { s2 with stepsRep := s2.stepsRep ++ [rep], executed := s2.executed ++ [st] }
      else
        let rep : StepReport :=
          ⟨stepNumOf st, stepNameOf st, .success, some result, some vres⟩
        StepOut.cont
          { s2 with stepsRep := s2.stepsRep ++ [rep], executed := s2.executed ++ [st] }

/-- The dry-run branch for one step (executor.py lines 193-197): record the
step as skipped and never call `run_command`. -/
def dryStep (st : Step) (s : EngState) : EngState :=
  { s with stepsRep :=
      s.stepsRep ++ [⟨stepNumOf st, stepNameOf st, .skipped, none, none⟩] }

/-- The step loop of `execute_plan` (executor.py lines 174-260). -/
def execLoop (env : Nat → ShellOutcome) (dry : Bool) :
    List Step → EngState → EngState
  | [], s => s
  | st :: rest, s =>
    if dry then execLoop env dry rest (dryStep st s)
    else
      match processStep env st s with
      | .cont s2 => execLoop env dry rest s2
      | .halt s2 => s2

/-- The initial engine state: `success = True`, `failed_step = None`,
empty report, empty ledger (executor.py lines 157-167). -/
def initState : EngState :=
  { stepsRep := [], success := true, failed_step := none
    executed := [], idx := 0, trace := [] }

/-- The final engine state of `execute_plan(plan, dry_run)`. -/
def execPlanState (env : Nat → ShellOutcome) (plan : Plan) (dry_run : Bool) :
    EngState :=
  execLoop env dry_run (plan.steps.getD []) initState

/-- The report returned by `execute_plan` (executor.py lines 155-271),
minus the two wall-clock timestamps. -/
structure Report where
  target : String
  platform : String
  dry_run : Bool
  steps : List StepReport
  success : Bool
  failed_step : Option StepNum
deriving Repr, DecidableEq

/-- `execute_plan(plan, dry_run)` (executor.py lines 155-271). -/
def execute_plan (env : Nat → ShellOutcome) (plan : Plan) (dry_run : Bool) :
    Report :=
  let fin := execPlanState env plan dry_run
  { target := plan.target.getD "unknown"
    platform := plan.platform.getD "unknown"
    dry_run := dry_run
    steps := fin.stepsRep
    success := fin.success
    failed_step := fin.failed_step }

/-! ### Derived descriptions used in the statements -/

/-- The Command Runner invocations performed by the rollback loop on a
given ledger: one `.rollback` call per entry whose `rollback` field is a
non-empty string, in the order of the ledger. -/
def rollbackCalls (l : List Step) : List Call :=
  l.filterMap fun p =>
    match p.rollback with
    | some r => if r = "" then none else some ⟨.rollback, r⟩
    | none => none

/-- The invocation performed for a step's own rollback command, when it
is a non-empty string (executor.py lines 245-246). -/
def ownRollbackCalls (st : Step) : List Call :=
  match st.rollback with
  | some r => if r = "" then [] else [⟨.rollback, r⟩]
  | none => []

/-- The report entry a dry run records for a step. -/
def skippedRep (st : Step) : StepReport :=
  ⟨stepNumOf st, stepNameOf st, .skipped, none, none⟩

/-- The state carried by either constructor of `StepOut`. -/
def stepOutState : StepOut → EngState
  | .cont s => s
  | .halt s => s

/-! ### Lemmas about the rollback loop -/

theorem rollbackAll_eq (l : List Step) (s : EngState) :
    rollbackAll l s =
      { s with idx := s.idx + (rollbackCalls l).length
               trace := s.trace ++ rollbackCalls l } := by
  induction l generalizing s with
  | nil => simp [rollbackAll, rollbackCalls]
  | cons p rest ih =>
    cases hrb : p.rollback with
    | none => simp [rollbackAll, rollbackCalls, hrb, ih]
    | some r =>
      by_cases hr : r = ""
      · simp [rollbackAll, rollbackCalls, hrb, hr, ih]
      · simp only [rollbackAll, rollbackCalls, hrb, hr, if_neg, List.filterMap_cons, ih]
        simp [rollbackCalls]
        omega

/-! ### Branch characterizations of `processStep` -/

theorem procFailCritical (env : Nat → ShellOutcome) (st : Step) (s : EngState)
    (hcrit : st.critical.getD true = true)
    (hfail : (run_command (st.command.getD "") 300 (env s.idx)).success = false) :
    processStep env st s = .halt
      { stepsRep := s.stepsRep ++ [⟨stepNumOf st, stepNameOf st, .failed,
          some (run_command (st.command.getD "") 300 (env s.idx)), none⟩]
        success := false
        failed_step := some (stepNumOf st)
        executed := s.executed
        idx := s.idx + 1 + (rollbackCalls s.executed.reverse).length
        trace := s.trace ++ ⟨.cmd, st.command.getD ""⟩ :: rollbackCalls s.executed.reverse } := by
  simp [processStep, hfail, hcrit, rollbackAll_eq]

theorem procFailNoncritical (env : Nat → ShellOutcome) (st : Step) (s : EngState)
    (hcrit : st.critical.getD true = false)
    (hfail : (run_command (st.command.getD "") 300 (env s.idx)).success = false) :
    processStep env st s = .cont
      { stepsRep := s.stepsRep ++ [⟨stepNumOf st, stepNameOf st, .failed,
          some (run_command (st.command.getD "") 300 (env s.idx)), none⟩]
        success := s.success
        failed_step := s.failed_step
        executed := s.executed
        idx := s.idx + 1
        trace := s.trace ++ [⟨.cmd, st.command.getD ""⟩] } := by
  simp [processStep, hfail, hcrit]

theorem procNoVerify (env : Nat → ShellOutcome) (st : Step) (s : EngState)
    (hok : (run_command (st.command.getD "") 300 (env s.idx)).success = true)
    (hv : st.verify.getD "" = "") :
    processStep env st s = .cont
      { stepsRep := s.stepsRep ++ [⟨stepNumOf st, stepNameOf st, .success,
          some (run_command (st.command.getD "") 300 (env s.idx)), none⟩]
        success := s.success
        failed_step := s.failed_step
        executed := s.executed ++ [st]
        idx := s.idx + 1
        trace := s.trace ++ [⟨.cmd, st.command.getD ""⟩] } := by
  simp [processStep, hok, hv]

theorem procVerifyOk (env : Nat → ShellOutcome) (st : Step) (s : EngState)
    (hok : (run_command (st.command.getD "") 300 (env s.idx)).success = true)
    (hv : st.verify.getD "" ≠ "")
    (hvok : (run_command (st.verify.getD "") 300 (env (s.idx + 1))).success = true) :
    processStep env st s = .cont
      { stepsRep := s.stepsRep ++ [⟨stepNumOf st, stepNameOf st, .success,
          some (run_command (st.command.getD "") 300 (env s.idx)),
          some (run_command (st.verify.getD "") 300 (env (s.idx + 1)))⟩]
        success := s.success
        failed_step := s.failed_step
        executed := s.executed ++ [st]
        idx := s.idx + 2
        trace := s.trace ++ [⟨.cmd, st.command.getD ""⟩, ⟨.verify, st.verify.getD ""⟩] } := by
  simp [processStep, hok, hv, hvok]

theorem procVerifyFailNoncritical (env : Nat → ShellOutcome) (st : Step) (s : EngState)
    (hcrit : st.critical.getD true = false)
    (hok : (run_command (st.command.getD "") 300 (env s.idx)).success = true)
    (hv : st.verify.getD "" ≠ "")
    (hvfail : (run_command (st.verify.getD "") 300 (env (s.idx + 1))).success = false) :
    processStep env st s = .cont
      { stepsRep := s.stepsRep ++ [⟨stepNumOf st, stepNameOf st, .success,
          some (run_command (st.command.getD "") 300 (env s.idx)),
          some (run_command (st.verify.getD "") 300 (env (s.idx + 1)))⟩]
        success := s.success
        failed_step := s.failed_step
        executed := s.executed ++ [st]
        idx := s.idx + 2
        trace := s.trace ++ [⟨.cmd, st.command.getD ""⟩, ⟨.verify, st.verify.getD ""⟩] } := by
  simp [processStep, hok, hv, hvfail, hcrit]

theorem procVerifyFailCritical (env : Nat → ShellOutcome) (st : Step) (s : EngState)
    (hcrit : st.critical.getD true = true)
    (hok : (run_command (st.command.getD "") 300 (env s.idx)).success = true)
    (hv : st.verify.getD "" ≠ "")
    (hvfail : (run_command (st.verify.getD "") 300 (env (s.idx + 1))).success = false) :
    processStep env st s = .halt
      { stepsRep := s.stepsRep ++ [⟨stepNumOf st, stepNameOf st, .verify_failed,
          some (run_command (st.command.getD "") 300 (env s.idx)),
          some (run_command (st.verify.getD "") 300 (env (s.idx + 1)))⟩]
        success := false
        failed_step := some (stepNumOf st)
        executed := s.executed
        idx := s.idx + 2 + (ownRollbackCalls st).length + (rollbackCalls s.executed.reverse).length
        trace := s.trace ++ ⟨.cmd, st.command.getD ""⟩ :: ⟨.verify, st.verify.getD ""⟩ ::
          (ownRollbackCalls st ++ rollbackCalls s.executed.reverse) } := by
  cases hrb : st.rollback with
  | none =>
    simp [processStep, hok, hv, hvfail, hcrit, hrb, rollbackAll_eq, ownRollbackCalls]
  | some r =>
    by_cases hr : r = ""
    · simp [processStep, hok, hv, hvfail, hcrit, hrb, hr, rollbackAll_eq, ownRollbackCalls]
    · simp [processStep, hok, hv, hvfail, hcrit, hrb, hr, rollbackAll_eq, ownRollbackCalls]

/-! ### Unfolding equations for the step loop -/

theorem execLoop_nil (env : Nat → ShellOutcome) (dry : Bool) (s : EngState) :
    execLoop env dry [] s = s := rfl

theorem execLoop_cons_dry (env : Nat → ShellOutcome) (st : Step) (rest : List Step)
    (s : EngState) :
    execLoop env true (st :: rest) s = execLoop env true rest (dryStep st s) := rfl

theorem execLoop_cons_cont (env : Nat → ShellOutcome) (st : Step) (rest : List Step)
    (s s2 : EngState) (h : processStep env st s = .cont s2) :
    execLoop env false (st :: rest) s = execLoop env false rest s2 := by
  simp [execLoop, h]

theorem execLoop_cons_halt (env : Nat → ShellOutcome) (st : Step) (rest : List Step)
    (s s2 : EngState) (h : processStep env st s = .halt s2) :
    execLoop env false (st :: rest) s = s2 := by
  simp [execLoop, h]

/-- Every run of the loop body either continues, preserving the engine's
`success` and `failed_step` verdicts, or stops the loop with
`success = false` and `failed_step` set to the current step; either way it
appends exactly one report entry, recorded under the current step's
identity. -/
theorem processStep_spec (env : Nat → ShellOutcome) (st : Step) (s : EngState) :
    (∃ s2 rep, processStep env st s = .cont s2 ∧ s2.success = s.success ∧
        s2.failed_step = s.failed_step ∧ StepReport.step rep = stepNumOf st ∧
        StepReport.name rep = stepNameOf st ∧ s2.stepsRep = s.stepsRep ++ [rep]) ∨
    (∃ s2 rep, processStep env st s = .halt s2 ∧ s2.success = false ∧
        s2.failed_step = some (stepNumOf st) ∧ StepReport.step rep = stepNumOf st ∧
        StepReport.name rep = stepNameOf st ∧ s2.stepsRep = s.stepsRep ++ [rep]) := by
  cases hres : (run_command (st.command.getD "") 300 (env s.idx)).success with
  | false =>
    cases hcrit : st.critical.getD true with
    | true =>
      exact Or.inr ⟨_, _, procFailCritical env st s hcrit hres, rfl, rfl, rfl, rfl, rfl⟩
    | false =>
      exact Or.inl ⟨_, _, procFailNoncritical env st s hcrit hres, rfl, rfl, rfl, rfl, rfl⟩
  | true =>
    by_cases hv : st.verify.getD "" = ""
    · exact Or.inl ⟨_, _, procNoVerify env st s hres hv, rfl, rfl, rfl, rfl, rfl⟩
    · cases hvres : (run_command (st.verify.getD "") 300 (env (s.idx + 1))).success with
      | true =>
        exact Or.inl ⟨_, _, procVerifyOk env st s hres hv hvres, rfl, rfl, rfl, rfl, rfl⟩
      | false =>
        cases hcrit : st.critical.getD true with
        | true =>
          exact Or.inr
            ⟨_, _, procVerifyFailCritical env st s hcrit hres hv hvres, rfl, rfl, rfl, rfl, rfl⟩
        | false =>
          exact Or.inl
            ⟨_, _, procVerifyFailNoncritical env st s hcrit hres hv hvres, rfl, rfl, rfl, rfl, rfl⟩

/-- A prefix of the step list that ends with the engine still reporting
`success = true` cannot have broken out of the loop, so the loop
composes over list append.  (Every `break` in `execute_plan` sets
`report["success"] = False`, and nothing ever sets it back to `True`.) -/
theorem execLoop_append (env : Nat → ShellOutcome) (dry : Bool) (pre l : List Step)
    (s : EngState) (h : (execLoop env dry pre s).success = true) :
    execLoop env dry (pre ++ l) s = execLoop env dry l (execLoop env dry pre s) := by
  induction pre generalizing s with
  | nil => rfl
  | cons st rest ih =>
    by_cases hd : dry = true
    · subst hd
      rw [List.cons_append, execLoop_cons_dry, execLoop_cons_dry]
      rw [execLoop_cons_dry] at h
      exact ih _ h
    · have hd2 : dry = false := by simpa using hd
      subst hd2
      rcases processStep_spec env st s with ⟨s2, rep, heq, _⟩ | ⟨s2, rep, heq, hsucc, _⟩
      · rw [List.cons_append, execLoop_cons_cont env st (rest ++ l) s s2 heq,
          execLoop_cons_cont env st rest s s2 heq]
        rw [execLoop_cons_cont env st rest s s2 heq] at h
        exact ih s2 h
      · rw [execLoop_cons_halt env st rest s s2 heq] at h
        rw [hsucc] at h
        exact absurd h (by simp)

/-- The loop preserves the invariant tying the `success` flag to the
`failed_step` field: they are only ever changed together. -/
theorem execLoop_invariant (env : Nat → ShellOutcome) (dry : Bool) (l : List Step)
    (s : EngState) (h : s.success = false ↔ s.failed_step ≠ none) :
    ((execLoop env dry l s).success = false ↔
      (execLoop env dry l s).failed_step ≠ none) := by
  induction l generalizing s with
  | nil => exact h
  | cons st rest ih =>
    by_cases hd : dry = true
    · subst hd
      rw [execLoop_cons_dry]
      exact ih _ (by simpa [dryStep] using h)
    · have hd2 : dry = false := by simpa using hd
      subst hd2
      rcases processStep_spec env st s with
        ⟨s2, rep, heq, hsucc, hfs, _⟩ | ⟨s2, rep, heq, hsucc, hfs, _⟩
      · rw [execLoop_cons_cont env st rest s s2 heq]
        exact ih s2 (by rw [hsucc, hfs]; exact h)
      · rw [execLoop_cons_halt env st rest s s2 heq, hsucc, hfs]
        simp

/-! ### Lemmas about the dry-run loop -/

theorem execLoop_dry (env : Nat → ShellOutcome) (l : List Step) (s : EngState) :
    execLoop env true l s =
      { s with stepsRep := s.stepsRep ++ l.map skippedRep } := by
  induction l generalizing s with
  | nil => simp [execLoop]
  | cons st rest ih =>
    simp [execLoop, dryStep, ih, skippedRep, List.append_assoc]

/-! ### Concrete plans and oracles used by witnesses and counterexamples -/

/-- Every spawned process exits 0. -/
def cEnvOK : Nat → ShellOutcome := fun _ => .completed 0 "installed" ""

/-- Every spawned process exits 1. -/
def cEnvFail : Nat → ShellOutcome := fun _ => .completed 1 "" "err"

/-- The second `run_command` invocation fails, all others succeed. -/
def cEnvA : Nat → ShellOutcome :=
  fun i => if i = 1 then .completed 1 "" "err" else .completed 0 "" ""

def cStep1 : Step := ⟨some 1, some "s1", some "a", none, some "rb1", none⟩
def cStep2 : Step := ⟨some 2, some "s2", some "b", none, some "rb2", none⟩
def cStep3 : Step := ⟨some 3, some "s3", some "c", none, none, none⟩
def cPlanA : Plan := ⟨some "tgt", some "linux", some [cStep1, cStep2, cStep3]⟩

/-- The third `run_command` invocation fails, all others succeed. -/
def cEnvV : Nat → ShellOutcome :=
  fun i => if i = 2 then .completed 1 "" "err" else .completed 0 "ok" ""

def cStepV1 : Step := ⟨some 1, some "one", some "c1", none, some "rb1", none⟩
def cStepV2 : Step := ⟨some 2, some "two", some "c2", some "v2", some "rb2", some true⟩
def cPlanV : Plan := ⟨some "t", none, some [cStepV1, cStepV2]⟩

/-- The second `run_command` invocation fails, all others succeed. -/
def cEnvD : Nat → ShellOutcome :=
  fun i => if i = 1 then .completed 1 "" "err" else .completed 0 "ok" ""

def cStepD : Step := ⟨some 1, some "d", some "cmd", some "vfy", some "rb", some false⟩
def cPlanD : Plan := ⟨some "t", none, some [cStepD]⟩

/-- The first `run_command` invocation fails, all others succeed. -/
def cEnvN : Nat → ShellOutcome :=
  fun i => if i = 0 then .completed 1 "" "err" else .completed 0 "ok" ""

def cStepN : Step := ⟨some 1, some "n", some "x", none, none, some false⟩
def cStepN2 : Step := ⟨some 2, some "m", some "y", none, none, none⟩
def cPlanN : Plan := ⟨some "t", none, some [cStepN, cStepN2]⟩

/-- A step with no `number` and no `name` fields. -/
def cStepAnon : Step := ⟨none, none, some "apt-get install x", none, none, none⟩

/-- A plan missing the `target` (and `platform`) fields, with a step
missing `number` and `name`. -/
def cPlanX : Plan := ⟨none, none, some [cStepAnon]⟩

/-- A plan source missing the `steps` field altogether. -/
def cPlanNoSteps : Plan := ⟨none, none, none⟩

/-- A step whose command is the empty sentinel but whose critical
verification fails. -/
def cStepSentinel : Step := ⟨some 1, some "placeholder", some "", some "test -f /x", none, some true⟩
def cPlanS : Plan := ⟨some "t", none, some [cStepSentinel]⟩

/-- A step whose command is the empty sentinel and which has no verify. -/
def cStepEmptyCmd : Step := ⟨some 1, some "todo", some "", none, none, none⟩

/-! ### The claims -/

/-- Claim C1: for every plan run with `dry_run = false`, when a critical
step's command fails (`run_command` returns `success = false`), the
engine records that step with status `failed`, sets the report's
`success` to `false` and `failed_step` to that step's number, invokes the
rollback command of every `executed_steps` entry in reverse order of
completion (`rollbackCalls s.executed.reverse` is exactly those
invocations, most-recently-completed first), and processes no later step:
the final state's report and trace end at the failing step.  The prefix
hypothesis `hpre` says the steps before the failing one completed without
a critical failure (every `break` sets `success = False` permanently, so
`success = true` characterizes an unbroken prefix). -/
theorem claim_C1_critical_command_failure_rolls_back (env : Nat → ShellOutcome)
    (plan : Plan) (pre : List Step) (st : Step) (rest : List Step)
    (hsteps : plan.steps.getD [] = pre ++ st :: rest)
    (hpre : (execLoop env false pre initState).success = true)
    (hcrit : st.critical.getD true = true)
    (hfail : (run_command (st.command.getD "") 300
        (env (execLoop env false pre initState).idx)).success = false) :
    execPlanState env plan false =
      { stepsRep := (execLoop env false pre initState).stepsRep ++
          [⟨stepNumOf st, stepNameOf st, .failed,
            some (run_command (st.command.getD "") 300
              (env (execLoop env false pre initState).idx)), none⟩]
        success := false
        failed_step := some (stepNumOf st)
        executed := (execLoop env false pre initState).executed
        idx := (execLoop env false pre initState).idx + 1 +
          (rollbackCalls (execLoop env false pre initState).executed.reverse).length
        trace := (execLoop env false pre initState).trace ++
          ⟨.cmd, st.command.getD ""⟩ ::
            rollbackCalls (execLoop env false pre initState).executed.reverse } := by
  unfold execPlanState
  rw [hsteps, execLoop_append env false pre (st :: rest) initState hpre,
    execLoop_cons_halt env st rest _ _
      (procFailCritical env st (execLoop env false pre initState) hcrit hfail)]

theorem claim_C1_witness :
    execPlanState cEnvA cPlanA false =
      { stepsRep := [⟨.num 1, "s1", .success, some ⟨true, some "", some "", 0⟩, none⟩,
          ⟨.num 2, "s2", .failed, some ⟨false, some "", some "err", 1⟩, none⟩]
        success := false
        failed_step := some (.num 2)
        executed := [cStep1]
        idx := 3
        trace := [⟨.cmd, "a"⟩, ⟨.cmd, "b"⟩, ⟨.rollback, "rb1"⟩] } :=
  claim_C1_critical_command_failure_rolls_back cEnvA cPlanA [cStep1] cStep2 [cStep3]
    (by rfl) (by rfl) (by rfl) (by rfl)

/-- Claim C2: for every plan run with `dry_run = false`, when a critical
step's command succeeds but its verification fails, the engine records
the step with status `verify_failed` (with the failing result stored in
`verify_result`), sets `failed_step` to its number and `success` to
`false`, first invokes that step's own rollback command when present
(`ownRollbackCalls st`), then the rollback of every prior
`executed_steps` entry in reverse completion order, and processes no
later step. -/
theorem claim_C2_critical_verify_failure_rolls_back (env : Nat → ShellOutcome)
    (plan : Plan) (pre : List Step) (st : Step) (rest : List Step)
    (hsteps : plan.steps.getD [] = pre ++ st :: rest)
    (hpre : (execLoop env false pre initState).success = true)
    (hcrit : st.critical.getD true = true)
    (hok : (run_command (st.command.getD "") 300
        (env (execLoop env false pre initState).idx)).success = true)
    (hv : st.verify.getD "" ≠ "")
    (hvfail : (run_command (st.verify.getD "") 300
        (env ((execLoop env false pre initState).idx + 1))).success = false) :
    execPlanState env plan false =
      { stepsRep := (execLoop env false pre initState).stepsRep ++
          [⟨stepNumOf st, stepNameOf st, .verify_failed,
            some (run_command (st.command.getD "") 300
              (env (execLoop env false pre initState).idx)),
            some (run_command (st.verify.getD "") 300
              (env ((execLoop env false pre initState).idx + 1)))⟩]
        success := false
        failed_step := some (stepNumOf st)
        executed := (execLoop env false pre initState).executed
        idx := (execLoop env false pre initState).idx + 2 +
          (ownRollbackCalls st).length +
          (rollbackCalls (execLoop env false pre initState).executed.reverse).length
        trace := (execLoop env false pre initState).trace ++
          ⟨.cmd, st.command.getD ""⟩ :: ⟨.verify, st.verify.getD ""⟩ ::
            (ownRollbackCalls st ++
              rollbackCalls (execLoop env false pre initState).executed.reverse) } := by
  unfold execPlanState
  rw [hsteps, execLoop_append env false pre (st :: rest) initState hpre,
    execLoop_cons_halt env st rest _ _
      (procVerifyFailCritical env st (execLoop env false pre initState) hcrit hok hv hvfail)]

theorem claim_C2_witness :
    execPlanState cEnvV cPlanV false =
      { stepsRep := [⟨.num 1, "one", .success, some ⟨true, some "ok", some "", 0⟩, none⟩,
          ⟨.num 2, "two", .verify_failed, some ⟨true, some "ok", some "", 0⟩,
            some ⟨false, some "", some "err", 1⟩⟩]
        success := false
        failed_step := some (.num 2)
        executed := [cStepV1]
        idx := 5
        trace := [⟨.cmd, "c1"⟩, ⟨.cmd, "c2"⟩, ⟨.verify, "v2"⟩,
          ⟨.rollback, "rb2"⟩, ⟨.rollback, "rb1"⟩] } :=
  claim_C2_critical_verify_failure_rolls_back cEnvV cPlanV [cStepV1] cStepV2 []
    (by rfl) (by rfl) (by rfl) (by rfl) (by simp [cStepV2]) (by rfl)

/-- Claim C3: for every plan run with `dry_run = false`, when a
non-critical step's command succeeds but its verification fails, the
engine records that step with final status `success` (the transient
`verify_failed` assignment is overwritten at executor.py line 258), still
stores the failing result in `verify_result`, appends the step to the
`executed_steps` ledger, leaves the report's `success` flag `true` (the
recorded `success := true` below comes from the unbroken prefix), and
continues with the remaining steps. -/
theorem claim_C3_noncritical_verify_failure_keeps_success (env : Nat → ShellOutcome)
    (plan : Plan) (pre : List Step) (st : Step) (rest : List Step)
    (hsteps : plan.steps.getD [] = pre ++ st :: rest)
    (hpre : (execLoop env false pre initState).success = true)
    (hcrit : st.critical.getD true = false)
    (hok : (run_command (st.command.getD "") 300
        (env (execLoop env false pre initState).idx)).success = true)
    (hv : st.verify.getD "" ≠ "")
    (hvfail : (run_command (st.verify.getD "") 300
        (env ((execLoop env false pre initState).idx + 1))).success = false) :
    execPlanState env plan false =
      execLoop env false rest
        { stepsRep := (execLoop env false pre initState).stepsRep ++
            [⟨stepNumOf st, stepNameOf st, .success,
              some (run_command (st.command.getD "") 300
                (env (execLoop env false pre initState).idx)),
              some (run_command (st.verify.getD "") 300
                (env ((execLoop env false pre initState).idx + 1)))⟩]
          success := true
          failed_step := (execLoop env false pre initState).failed_step
          executed := (execLoop env false pre initState).executed ++ [st]
          idx := (execLoop env false pre initState).idx + 2
          trace := (execLoop env false pre initState).trace ++
            [⟨.cmd, st.command.getD ""⟩, ⟨.verify, st.verify.getD ""⟩] } := by
  unfold execPlanState
  rw [hsteps, execLoop_append env false pre (st :: rest) initState hpre,
    execLoop_cons_cont env st rest _ _
      (procVerifyFailNoncritical env st (execLoop env false pre initState) hcrit hok hv hvfail)]
  rw [hpre]

theorem claim_C3_witness :
    execPlanState cEnvD cPlanD false =
      { stepsRep := [⟨.num 1, "d", .success, some ⟨true, some "ok", some "", 0⟩,
          some ⟨false, some "", some "err", 1⟩⟩]
        success := true
        failed_step := none
        executed := [cStepD]
        idx := 2
        trace := [⟨.cmd, "cmd"⟩, ⟨.verify, "vfy"⟩] } :=
  claim_C3_noncritical_verify_failure_keeps_success cEnvD cPlanD [] cStepD []
    (by rfl) (by rfl) (by rfl) (by rfl) (by simp [cStepD]) (by rfl)

/-- Claim C4, counterexample: the claim says a plan source missing
`target`, or a step lacking `number`/`name`, makes loading fail with a
`ParseError` so that execution never proceeds.  No such validation exists
anywhere in executor.py: `cPlanX` is missing `target` and `platform` and
its only step is missing `number` and `name`, yet `execute_plan` runs the
step's command (the Runner trace is non-empty) and returns a successful
report with the defaults substituted. -/
theorem claim_C4_counterexample :
    cPlanX.target = none ∧ cStepAnon.number = none ∧ cStepAnon.name = none ∧
    (execPlanState cEnvOK cPlanX false).trace = [⟨.cmd, "apt-get install x"⟩] ∧
    execute_plan cEnvOK cPlanX false =
      { target := "unknown", platform := "unknown", dry_run := false
        steps := [⟨.unknown, "Unnamed step", .success,
          some ⟨true, some "installed", some "", 0⟩, none⟩]
        success := true
        failed_step := none } :=
  ⟨rfl, rfl, rfl, by decide, by decide⟩

/-- Claim C4, amended: loading never fails and nothing aborts on an
incomplete plan.  There is no `ParseError`: every field is read with a
default (`plan.get("target", "unknown")`, `plan.get("steps", [])`,
`step.get("step", "?")`, `step.get("name", "Unnamed step")`), so a plan
missing `target` or `steps`, or a step lacking `number` or `name`, is
executed anyway with the defaults substituted: `target`/`platform` become
`"unknown"`, a missing `steps` list yields an empty successful run with no
Runner invocation, and a step missing `number` and `name` is still
processed, recorded under the placeholder identity `"?"` and the name
`"Unnamed step"`. -/
theorem claim_C4_amended_no_parse_error :
    (∀ (env : Nat → ShellOutcome) (plan : Plan) (dry : Bool),
      (execute_plan env plan dry).target = plan.target.getD "unknown" ∧
      (execute_plan env plan dry).platform = plan.platform.getD "unknown") ∧
    (∀ (env : Nat → ShellOutcome) (dry : Bool) (plan : Plan), plan.steps = none →
      (execute_plan env plan dry).steps = [] ∧
      (execute_plan env plan dry).success = true ∧
      (execPlanState env plan dry).trace = []) ∧
    (∀ (env : Nat → ShellOutcome) (st : Step) (s : EngState),
      st.number = none → st.name = none →
      ∃ rep : StepReport, rep.step = .unknown ∧ rep.name = "Unnamed step" ∧
        (stepOutState (processStep env st s)).stepsRep = s.stepsRep ++ [rep]) := by
  refine ⟨fun env plan dry => ⟨rfl, rfl⟩, ?_, ?_⟩
  · intro env dry plan h
    refine ⟨?_, ?_, ?_⟩ <;>
      simp [execute_plan, execPlanState, h, execLoop_nil, initState]
  · intro env st s hnum hname
    have hn : stepNumOf st = .unknown := by simp [stepNumOf, hnum]
    have hm : stepNameOf st = "Unnamed step" := by simp [stepNameOf, hname]
    rcases processStep_spec env st s with
      ⟨s2, rep, heq, _, _, hstep, hnm, hrep⟩ | ⟨s2, rep, heq, _, _, hstep, hnm, hrep⟩
    · exact ⟨rep, by rw [hstep, hn], by rw [hnm, hm],
        by rw [heq]; simpa [stepOutState] using hrep⟩
    · exact ⟨rep, by rw [hstep, hn], by rw [hnm, hm],
        by rw [heq]; simpa [stepOutState] using hrep⟩

theorem claim_C4_amended_witness :
    (execute_plan cEnvOK cPlanNoSteps false).steps = [] ∧
    (execute_plan cEnvOK cPlanNoSteps false).success = true ∧
    ∃ rep : StepReport, rep.step = .unknown ∧ rep.name = "Unnamed step" ∧
      (stepOutState (processStep cEnvOK cStepAnon initState)).stepsRep =
        initState.stepsRep ++ [rep] :=
  ⟨(claim_C4_amended_no_parse_error.2.1 cEnvOK false cPlanNoSteps rfl).1,
   (claim_C4_amended_no_parse_error.2.1 cEnvOK false cPlanNoSteps rfl).2.1,
   claim_C4_amended_no_parse_error.2.2 cEnvOK cStepAnon initState rfl rfl⟩

/-- Claim C5: for every plan and every oracle, a dry run records every
step as `skipped` (with no `command_result` or `verify_result`, see
`skippedRep`), never invokes the Command Runner (the invocation trace is
empty), and returns a report with `success = true`. -/
theorem claim_C5_dry_run_skips_everything (env : Nat → ShellOutcome) (plan : Plan) :
    execute_plan env plan true =
      { target := plan.target.getD "unknown"
        platform := plan.platform.getD "unknown"
        dry_run := true
        steps := (plan.steps.getD []).map skippedRep
        success := true
        failed_step := none } ∧
    (execPlanState env plan true).trace = [] := by
  constructor
  · simp [execute_plan, execPlanState, execLoop_dry, initState]
  · simp [execPlanState, execLoop_dry, initState]

/-- Claim C6: for every plan run with `dry_run = false`, when a
non-critical step's command fails, the engine records that step with
status `failed`, does not add it to the `executed_steps` ledger, keeps
the report's `success` flag `true` (`success := true` below comes from
the unbroken prefix and is untouched by this step), leaves `failed_step`
unchanged, and continues with the remaining steps in order. -/
theorem claim_C6_noncritical_command_failure_continues (env : Nat → ShellOutcome)
    (plan : Plan) (pre : List Step) (st : Step) (rest : List Step)
    (hsteps : plan.steps.getD [] = pre ++ st :: rest)
    (hpre : (execLoop env false pre initState).success = true)
    (hcrit : st.critical.getD true = false)
    (hfail : (run_command (st.command.getD "") 300
        (env (execLoop env false pre initState).idx)).success = false) :
    execPlanState env plan false =
      execLoop env false rest
        { stepsRep := (execLoop env false pre initState).stepsRep ++
            [⟨stepNumOf st, stepNameOf st, .failed,
              some (run_command (st.command.getD "") 300
                (env (execLoop env false pre initState).idx)), none⟩]
          success := true
          failed_step := (execLoop env false pre initState).failed_step
          executed := (execLoop env false pre initState).executed
          idx := (execLoop env false pre initState).idx + 1
          trace := (execLoop env false pre initState).trace ++
            [⟨.cmd, st.command.getD ""⟩] } := by
  unfold execPlanState
  rw [hsteps, execLoop_append env false pre (st :: rest) initState hpre,
    execLoop_cons_cont env st rest _ _
      (procFailNoncritical env st (execLoop env false pre initState) hcrit hfail)]
  rw [hpre]

theorem claim_C6_witness :
    execPlanState cEnvN cPlanN false =
      { stepsRep := [⟨.num 1, "n", .failed, some ⟨false, some "", some "err", 1⟩, none⟩,
          ⟨.num 2, "m", .success, some ⟨true, some "ok", some "", 0⟩, none⟩]
        success := true
        failed_step := none
        executed := [cStepN2]
        idx := 2
        trace := [⟨.cmd, "x"⟩, ⟨.cmd, "y"⟩] } :=
  claim_C6_noncritical_command_failure_continues cEnvN cPlanN [] cStepN [cStepN2]
    (by rfl) (by rfl) (by rfl) (by rfl)

/-- Claim C7: `run_command` surfaces every fault as a `CommandResult`
value (its codomain in this embedding, mirroring the enclosing
`try/except` of executor.py lines 125-152, which catches
`TimeoutExpired` and every other `Exception`): for every non-sentinel
command and every timeout, a timeout yields `success = false`,
`returncode = -1` and an error message stating the timeout duration in
seconds, and any launch/execution fault yields `success = false`,
`returncode = -1` and the fault description as the error message. -/
theorem claim_C7_run_command_captures_faults (command : String) (timeout : Nat)
    (h : (command = "" || startsWithHash command) = false) :
    run_command command timeout .timedOut =
      ⟨false, none,
        some ("Command timed out after " ++ toString timeout ++ " seconds"), -1⟩ ∧
    ∀ msg, run_command command timeout (.fault msg) = ⟨false, none, some msg, -1⟩ := by
  constructor
  · simp [run_command, h]
  · intro msg
    simp [run_command, h]

theorem claim_C7_witness :
    run_command "sleep 10" 5 .timedOut =
      ⟨false, none, some "Command timed out after 5 seconds", -1⟩ ∧
    run_command "sleep 10" 5 (.fault "Permission denied") =
      ⟨false, none, some "Permission denied", -1⟩ :=
  ⟨(claim_C7_run_command_captures_faults "sleep 10" 5 rfl).1,
   (claim_C7_run_command_captures_faults "sleep 10" 5 rfl).2 "Permission denied"⟩

/-- Claim C8, counterexample: the first half of the claim holds
(`run_command` on the empty sentinel returns success with the skipped
output), but the second half — "a step whose command is such a sentinel
is recorded with step status 'success'" — is false as a universal
statement: `cStepSentinel` has the empty command together with a verify
command that fails while `critical` is true, and executor.py lines
235-254 record it as `verify_failed`, not `success`. -/
theorem claim_C8_counterexample :
    cStepSentinel.command = some "" ∧
    (run_command (cStepSentinel.command.getD "") 300 (cEnvFail 0)).success = true ∧
    (execute_plan cEnvFail cPlanS false).steps.map StepReport.status =
      [.verify_failed] :=
  ⟨rfl, by decide, by decide⟩

/-- Claim C8, amended: for every command string that is empty or begins
with `#`, `run_command` returns success with the descriptive output
`"Skipped (no command or placeholder)"` and executes nothing (the result
is the same for every process outcome, since no process is spawned); and
a step whose command is such a sentinel is recorded with step status
`success` unless its verify command is present and fails while the step
is critical (in which case the recorded status is `verify_failed`,
executor.py lines 235-254). -/
theorem claim_C8_amended_sentinel_success (command : String) (timeout : Nat)
    (hs : (command = "" || startsWithHash command) = true) :
    (∀ outcome, run_command command timeout outcome =
      ⟨true, some "Skipped (no command or placeholder)", none, 0⟩) ∧
    (∀ (env : Nat → ShellOutcome) (st : Step) (s : EngState),
      st.command.getD "" = command →
      (st.verify.getD "" = "" ∨
        (run_command (st.verify.getD "") 300 (env (s.idx + 1))).success = true ∨
        st.critical.getD true = false) →
      ∃ rep : StepReport, rep.status = .success ∧
        (stepOutState (processStep env st s)).stepsRep = s.stepsRep ++ [rep]) := by
  have hrc : ∀ (tout : Nat) (outcome : ShellOutcome), run_command command tout outcome =
      ⟨true, some "Skipped (no command or placeholder)", none, 0⟩ := by
    intro tout outcome
    simp [run_command, hs]
  refine ⟨hrc timeout, ?_⟩
  intro env st s hcmd hdisj
  have hok : (run_command (st.command.getD "") 300 (env s.idx)).success = true := by
    rw [hcmd, hrc 300 (env s.idx)]
  by_cases hv : st.verify.getD "" = ""
  · refine ⟨⟨stepNumOf st, stepNameOf st, .success,
      some (run_command (st.command.getD "") 300 (env s.idx)), none⟩, rfl, ?_⟩
    rw [procNoVerify env st s hok hv]
    rfl
  · rcases hdisj with h1 | h2 | h3
    · exact absurd h1 hv
    · refine ⟨⟨stepNumOf st, stepNameOf st, .success,
        some (run_command (st.command.getD "") 300 (env s.idx)),
        some (run_command (st.verify.getD "") 300 (env (s.idx + 1)))⟩, rfl, ?_⟩
      rw [procVerifyOk env st s hok hv h2]
      rfl
    · cases hvres : (run_command (st.verify.getD "") 300 (env (s.idx + 1))).success with
      | true =>
        refine ⟨⟨stepNumOf st, stepNameOf st, .success,
          some (run_command (st.command.getD "") 300 (env s.idx)),
          some (run_command (st.verify.getD "") 300 (env (s.idx + 1)))⟩, rfl, ?_⟩
        rw [procVerifyOk env st s hok hv hvres]
        rfl
      | false =>
        refine ⟨⟨stepNumOf st, stepNameOf st, .success,
          some (run_command (st.command.getD "") 300 (env s.idx)),
          some (run_command (st.verify.getD "") 300 (env (s.idx + 1)))⟩, rfl, ?_⟩
        rw [procVerifyFailNoncritical env st s h3 hok hv hvres]
        rfl

theorem claim_C8_amended_witness :
    run_command "# placeholder" 300 .timedOut =
      ⟨true, some "Skipped (no command or placeholder)", none, 0⟩ ∧
    ∃ rep : StepReport, rep.status = .success ∧
      (stepOutState (processStep cEnvFail cStepEmptyCmd initState)).stepsRep =
        initState.stepsRep ++ [rep] :=
  ⟨(claim_C8_amended_sentinel_success "# placeholder" 300 rfl).1 .timedOut,
   (claim_C8_amended_sentinel_success "" 300 rfl).2 cEnvFail cStepEmptyCmd initState
     rfl (Or.inl rfl)⟩

/-- Claim C9: dry runs are idempotent.  Two dry runs of the same plan —
modelled as runs against two arbitrary, possibly different, process
oracles, since a dry run may happen at different times in different
world states — produce identical `StepReport` sequences: same step
numbers, names, statuses, `command_result` and `verify_result` values,
in the same order. -/
theorem claim_C9_dry_run_idempotent (env1 env2 : Nat → ShellOutcome) (plan : Plan) :
    (execute_plan env1 plan true).steps = (execute_plan env2 plan true).steps := by
  simp [execute_plan, execPlanState, execLoop_dry]

/-- Claim C10: for every plan, oracle and dry-run flag, the final report
satisfies `success = false` if and only if `failed_step ≠ None`.  The two
fields start as `True`/`None` (executor.py lines 163-164) and are only
ever assigned together, at a critical command failure (lines 210-212) or
a critical verification failure (lines 239-241); the loop preserves the
biconditional (`execLoop_invariant`). -/
theorem claim_C10_success_iff_no_failed_step (env : Nat → ShellOutcome)
    (plan : Plan) (dry : Bool) :
    ((execute_plan env plan dry).success = false ↔
      (execute_plan env plan dry).failed_step ≠ none) := by
  have h := execLoop_invariant env dry (plan.steps.getD []) initState
    (by simp [initState])
  simpa [execute_plan, execPlanState] using h

end Executor
